import Mathlib

set_option linter.unusedVariables false

/-!
Verification development for the ICEtool ground-temperature algorithm
(Scripts/Step4_ComputeTemperatureEPW.py).

The numerical core of the script is shallowly embedded here:

* the per-hour thermal equilibrium equation and its coefficients
  (`thermal_equation`, `compute_A`, `coefB`, `coefC`),
* the 24-hour cycle and the convergence loop of `compute_temp`
  (`cycleTemp`, `loopAux`, `solve_loop`, `compute_temp`),
* the rounding and aggregation of results (`round2`, `pyMin`, `pyMax`,
  `mean_stat`),
* the Penman-Monteith evapotranspiration function (`EvapoHour`, `Evapo`),
* the deep-ground boundary temperature (`Tint_src`),
* the weather-file extraction (`first_row`, `dayRows`, `weatherExtract`),
* the night-hour shadow filling (`night_table`, `hour_table`),
* the grouping and broadcasting of solved series (`ptKey`, `distinctKeys`,
  `solvedTable`, `outputRow`) and the early-exit guard of
  `processAlgorithm` (`detectResultLayer`, `processAlgorithmGate`).

Floating point numbers are idealised as elements of a linear ordered field
(rationals for executable witnesses, reals where the source uses
transcendental functions).  The scipy root finder `optimize.root` is
modelled as an oracle parameter `oracle : guess → A → B → C → value`; the
solver is proved correct conditionally on the oracle returning exact roots
at the calls it receives.
-/

/-- Wind (convective) coefficient, `hc=5` at line 451 of the source. -/
def hc {α : Type} [LinearOrderedField α] : α := 5

/-- Stefan-Boltzmann constant, `sigma = 5.67e-08` at line 452 of the source. -/
def sigmaSB {α : Type} [LinearOrderedField α] : α := 5.67e-8

/-- Coefficient `B` of the thermal equation, from line 455 of the source:
`simplified["B"]=hc+(simplified["lambd"]/simplified["ep"])+(simplified["Cv"]*simplified["ep"]/3600)`. -/
def coefB {α : Type} [LinearOrderedField α] (lambd ep Cv : α) : α :=
  hc + lambd / ep + Cv * ep / 3600

/-- Coefficient `C` of the thermal equation, from line 456 of the source:
`simplified["C"]=simplified["em"]*sigma`. -/
def coefC {α : Type} [LinearOrderedField α] (em : α) : α :=
  em * sigmaSB

/-- The thermal equilibrium residual, from lines 438-439 of the source:
`def thermal_equation(x,A,B,C): return A + (B * x) + ( C * ((x) ** 4) )`. -/
def thermal_equation {α : Type} [LinearOrderedField α] (x A B C : α) : α :=
  A + (B * x) + (C * (x ^ 4))

/-- The constant term `A` of the thermal equation, from lines 458-466 of the
source (`compute_A`).  The argument names and the grouping of every summand
follow the Python text. -/
def compute_A {α : Type} [LinearOrderedField α]
    (Shadow Gh alb em Tsky Tair lambd ep Cv ET0 kc Tint T0 : α) : α :=
  let a0 := -((0.8 * Gh * Shadow * (1 - alb)) + (0.2 * Gh * (1 - alb)))
  let a1 := (em * sigmaSB) * (-(Tsky ^ 4))
  let a2 := -hc * Tair
  let a3 := -(lambd / ep) * Tint
  let a4 := -(Cv * ep / 3600) * T0
  let a5 := ET0 * kc
  a0 + a1 + a2 + a3 + a4 + a5

/-- One row of the simplified problem table: the hourly series and material
constants that `compute_temp` receives (lines 475 and 518 of the source).
`B` and `C` are the precomputed columns of lines 455-456. -/
structure RowData (α : Type) where
  Shadow : ℕ → α
  Gh : ℕ → α
  Tsky : ℕ → α
  Tair : ℕ → α
  ET0 : ℕ → α
  Tint : ℕ → α
  alb : α
  em : α
  lambd : α
  ep : α
  Cv : α
  kc : α
  B : α
  C : α

/-- The `A` coefficient used for hour `h` of a cycle when the previous solved
temperature is `prev` (lines 487 and 490 of the source). -/
def hourA {α : Type} [LinearOrderedField α] (p : RowData α) (h : ℕ) (prev : α) : α :=
  compute_A (p.Shadow h) (p.Gh h) p.alb p.em (p.Tsky h) (p.Tair h)
    p.lambd p.ep p.Cv (p.ET0 h) p.kc (p.Tint h) prev

/-- Initial guess handed to the root finder for hour `h`: `T0 - 0.5` at hour
0 (line 488), otherwise `prev + 1.0` when `Shadow[h] > 0.4` and `prev - 0.5`
when not (lines 491-494). -/
def warmStart {α : Type} [LinearOrderedField α] (p : RowData α) (h : ℕ) (prev : α) : α :=
  if h = 0 then prev - 0.5
  else if p.Shadow h > 0.4 then prev + 1.0 else prev - 0.5

/-- The solved surface temperature of hour `h` within one 24-hour cycle
seeded with `T0`, lines 485-494 of the source.  `oracle` stands for
`optimize.root(thermal_equation, guess, (A, B, C)).x[0]`, receiving the
guess and the three coefficients. -/
def cycleTemp {α : Type} [LinearOrderedField α]
    (oracle : α → α → α → α → α) (p : RowData α) (T0 : α) : ℕ → α
  | 0 => oracle (warmStart p 0 T0) (hourA p 0 T0) p.B p.C
  | h + 1 =>
      oracle (warmStart p (h + 1) (cycleTemp oracle p T0 h))
        (hourA p (h + 1) (cycleTemp oracle p T0 h)) p.B p.C

/-- The temperature of the previous hour fed into `compute_A` at hour `h`:
the seed `T0` at hour 0, the previous solved hour otherwise. -/
def prevTemp {α : Type} [LinearOrderedField α]
    (oracle : α → α → α → α → α) (p : RowData α) (T0 : α) : ℕ → α
  | 0 => T0
  | h + 1 => cycleTemp oracle p T0 h

/-- Result of the convergence loop: the number of completed 24-hour passes,
the seed temperature of the last executed pass (whose hourly values are the
final ones), and whether the non-fatal convergence warning of line 503 was
emitted. -/
structure LoopResult (α : Type) where
  count : ℕ
  seed : α
  warn : Bool

/-- The `while equilibrium==False` loop of lines 484-505 of the source,
written with explicit fuel.  Each pass solves the 24 hours from the seed
`T0`, increments `count`, and once `count >= 2` stops when the error
`|Temp_DegC[23] - T0|` is below the threshold `0.5` (line 473) or
unconditionally when `count == 25`; otherwise the next pass is seeded with
`Temp_DegC[23]`.  The fuel-exhausted fallback is unreachable for the actual
call (fuel 24, count 0), as proved in `loopAux_bounds`. -/
def loopAux {α : Type} [LinearOrderedField α]
    (oracle : α → α → α → α → α) (p : RowData α) :
    ℕ → ℕ → α → LoopResult α
  | 0, count, T0 =>
      let last := cycleTemp oracle p T0 23
      let c := count + 1
      if 2 ≤ c ∧ (|last - T0| < 0.5 ∨ c = 25) then
        ⟨c, T0, if |last - T0| < 0.5 then false else true⟩
      else ⟨c, last, true⟩
  | fuel + 1, count, T0 =>
      let last := cycleTemp oracle p T0 23
      let c := count + 1
      if 2 ≤ c ∧ (|last - T0| < 0.5 ∨ c = 25) then
        ⟨c, T0, if |last - T0| < 0.5 then false else true⟩
      else loopAux oracle p fuel c last

/-- The convergence loop as invoked by `compute_temp`: count starts at 0
(line 482) and the initial seed is the midnight guess `28+273.15` of line
481.  Fuel 24 suffices because the pass counter is capped at 25. -/
def solve_loop {α : Type} [LinearOrderedField α]
    (oracle : α → α → α → α → α) (p : RowData α) : LoopResult α :=
  loopAux oracle p 24 0 (28 + 273.15)

/-- Round-half-to-even to an integer, the semantics of the Python builtin
`round` used (scaled by 100) at lines 301, 508 and 520 of the source. -/
def rhe {α : Type} [LinearOrderedField α] [FloorRing α] (q : α) : ℤ :=
  if q - ⌊q⌋ < 1 / 2 then ⌊q⌋
  else if 1 / 2 < q - ⌊q⌋ then ⌊q⌋ + 1
  else if Even ⌊q⌋ then ⌊q⌋ else ⌊q⌋ + 1

/-- The Python expression `round(x, 2)`: rounding to two decimal places with
ties to even. -/
def round2 {α : Type} [LinearOrderedField α] [FloorRing α] (q : α) : α :=
  ((rhe (100 * q) : ℤ) : α) / 100

/-- The solver of lines 475-509 of the source (`compute_temp`), with the
same argument order.  If the material fixes a nonzero temperature the 24
slots are filled with it (lines 477-479); otherwise the convergence loop
runs and the hourly temperatures of its final pass are converted to Celsius
and rounded to two decimals (lines 480-508). -/
def compute_temp {α : Type} [LinearOrderedField α] [FloorRing α]
    (oracle : α → α → α → α → α) (tid FixedTemp : α) (Shadow : ℕ → α)
    (B C : α) (Gh : ℕ → α) (alb em : α) (Tsky Tair : ℕ → α)
    (lambd ep Cv : α) (ET0 : ℕ → α) (Tint : ℕ → α) (kc : α) : List α :=
  if ¬ (FixedTemp = 0) then
    List.ofFn (fun _ : Fin 24 => FixedTemp)
  else
    let p : RowData α := ⟨Shadow, Gh, Tsky, Tair, ET0, Tint, alb, em,
      lambd, ep, Cv, kc, B, C⟩
    let r := solve_loop oracle p
    List.ofFn (fun h : Fin 24 => round2 (cycleTemp oracle p r.seed h - 273.15))

/-- The Python builtin `min` over a nonempty list (line 519 of the source);
the empty case, which Python rejects, is mapped to `0`. -/
def pyMin {α : Type} [LinearOrderedField α] : List α → α
  | [] => 0
  | x :: xs => xs.foldl min x

/-- The Python builtin `max` over a nonempty list (line 521 of the source). -/
def pyMax {α : Type} [LinearOrderedField α] : List α → α
  | [] => 0
  | x :: xs => xs.foldl max x

/-- The reported mean of line 520 of the source:
`round(statistics.mean(series), 2)`, with `statistics.mean` the exact sum
divided by the length. -/
def mean_stat {α : Type} [LinearOrderedField α] [FloorRing α] (l : List α) : α :=
  round2 (l.sum / (l.length : α))

/-- Clamp of lines 429-430 of the source: `if ET0<0: ET0=0`. -/
noncomputable def clamp0 (x : ℝ) : ℝ := if x < 0 then 0 else x

/-- Stefan-Boltzmann constant per hour, `sigma_h=2.043*10**-10` at line 374. -/
noncomputable def sigma_h : ℝ := 2.043e-10

/-- Nominal wind speed, `Vvent=0.27*(4.87/np.log(67.8*2-5.42))` at line 375. -/
noncomputable def Vvent : ℝ := 0.27 * (4.87 / Real.log (67.8 * 2 - 5.42))

/-- Atmospheric pressure from the altitude,
`Pa=101.3*((293-0.0065*alt)/293)**5.26` at line 376. -/
noncomputable def Pa (alt : ℝ) : ℝ :=
  101.3 * (((293 - 0.0065 * alt) / 293) ^ (5.26 : ℝ))

/-- Psychrometric constant, `gamma=0.000665*Pa` at line 377 (named `gamma`
in the source). -/
noncomputable def gammaC (alt : ℝ) : ℝ := 0.000665 * Pa alt

/-- Inverse relative Earth-Sun distance,
`dr=1+0.033*np.cos((2*np.pi/(365))*t)` at line 378. -/
noncomputable def dr (t : ℝ) : ℝ := 1 + 0.033 * Real.cos ((2 * Real.pi / 365) * t)

/-- Solar declination, `d=0.409*np.sin((2*np.pi/365)*t-1.39)` at line 379
(named `d` in the source). -/
noncomputable def dDecl (t : ℝ) : ℝ := 0.409 * Real.sin ((2 * Real.pi / 365) * t - 1.39)

/-- Hour `i` (0-based) of the evapotranspiration computation `Evapo` of
lines 381-433 of the source.  `alt` is the altitude parameter, `t` the day
ordinal, `l` the longitude offset of line 371; `th[i] = i + 0.5` is the
mid-hour list of line 383.  `np.e ** x` is `Real.exp x` and the day/night
branch of line 407 selects the two components `(ETwind, ETrad)`. -/
noncomputable def EvapoHour (alt t l : ℝ) (Tair Gh Ha : ℕ → ℝ)
    (lat alb : ℝ) (i : ℕ) : ℝ :=
  let th : ℝ := (i : ℝ) + 0.5
  let phi := (Real.pi / 180) * lat
  let b := 2 * Real.pi * (t - 81) / 364
  let Sc := 0.1645 * Real.sin (2 * b) - 0.1255 * Real.cos b - 0.025 * Real.sin b
  let Tmean := Tair i - 273.3
  let Rs := Gh i * 0.0036
  let Rns := (1 - alb) * Rs
  let delta := 4098 * (0.6108 * Real.exp (17.27 * Tmean / (Tmean + 237.3))) / (Tmean + 237.3) ^ 2
  let DTjour := delta / (delta + gammaC alt * (1 + 0.24 * Vvent))
  let DTnuit := delta / (delta + gammaC alt * (1 + 0.96 * Vvent))
  let PTjour := gammaC alt / (delta + gammaC alt * (1 + 0.24 * Vvent))
  let PTnuit := gammaC alt / (delta + gammaC alt * (1 + 0.96 * Vvent))
  let TT := (37 / (Tmean + 273)) * Vvent
  let es := 0.6108 * Real.exp ((17.27 * Tmean) / (Tmean + 237.3))
  let ea := es * (Ha i / 100)
  let w := (Real.pi / 12) * ((th + 0.06667 * l + Sc) - 12)
  let ws := Real.arccos (-Real.tan phi * Real.tan (dDecl t))
  let w1 := w - Real.pi / 24
  let w2 := w + Real.pi / 24
  let wind_rad : ℝ × ℝ :=
    if w > -ws ∧ w < ws then
      let Ra := (12 * 60 / Real.pi) * 0.0820 * dr t *
        ((w2 - w1) * Real.sin phi * Real.sin (dDecl t) +
          Real.cos phi * Real.cos (dDecl t) * (Real.sin w2 - Real.sin w1))
      let Rso := (0.75 + (2 * (10 : ℝ) ^ (-5 : ℤ)) * alt) * Ra
      let Rnl := sigma_h * ((Tmean + 273.16) ^ 4) * (0.34 - 0.14 * Real.sqrt ea) *
        (1.35 * (Rs / Rso) - 0.35)
      let Rn := Rns - Rnl
      let G := 0.1 * Rn
      let Rng := 0.408 * Rn - G
      (PTjour * TT * (es - ea), DTjour * Rng)
    else
      let Ra : ℝ := 0
      let Rso := (0.75 + (2 * (10 : ℝ) ^ (-5 : ℤ)) * alt) * Ra
      let Rnl := sigma_h * ((Tmean + 273.16) ^ 4) * (0.34 - 0.14 * Real.sqrt ea) *
        (1.35 * 0.8 - 0.35)
      let Rn := Rns - Rnl
      let G := 0.5 * Rn
      let Rng := 0.408 * Rn - G
      (PTnuit * TT * (es - ea), DTnuit * Rng)
  clamp0 ((wind_rad.1 + wind_rad.2) * 2260000 / 3600)

/-- The 24-entry list `ETO` returned by `Evapo` (lines 382-433). -/
noncomputable def Evapo (alt t l : ℝ) (Tair Gh Ha : ℕ → ℝ)
    (lat alb : ℝ) : List ℝ :=
  (List.range 24).map (EvapoHour alt t l Tair Gh Ha lat alb)

/-- Month lengths, `list_month=[31,28,31,30,31,30,31,31,30,31,30,31]` at
line 324 of the source. -/
def list_month : List ℕ := [31, 28, 31, 30, 31, 30, 31, 31, 30, 31, 30, 31]

/-- The cumulative day of year `t` of lines 325-329: the lengths of the
months before the target month, plus the day. -/
def dayOfYear (month day : ℕ) : ℕ := (list_month.take (month - 1)).sum + day

/-- Depth of burial, `Z=0.2` at line 350 of the source. -/
noncomputable def Zburial : ℝ := 0.2

/-- Annual angular frequency, `w=2*np.pi/365` at line 351 of the source. -/
noncomputable def wAnn : ℝ := 2 * Real.pi / 365

/-- Thermal diffusivity of the soil, line 348 of the source:
`simplified["Dh"]=(simplified["lambd"]/simplified["Cv"])*86400`. -/
noncomputable def Dh_def (lambd Cv : ℝ) : ℝ := (lambd / Cv) * 86400

/-- Hour `i` of the deep-ground boundary temperature `Tint` of lines
353-359 of the source, with `np.e ** x` embedded as real exponentiation of
`Real.exp 1`. -/
noncomputable def Tint_src (Tyear deltaT : ℕ → ℝ) (Dh t : ℝ) (i : ℕ) : ℝ :=
  let Zo := Real.sqrt (2 * Dh / wAnn)
  Tyear i - deltaT i * (Real.exp 1) ^ (-(Zburial / Zo)) *
    Real.cos (wAnn * t - Zburial / Zo)

/-- The Python test `row[0].isdigit()` of line 294: nonempty and all digits. -/
def pyIsDigit (s : String) : Bool := s ≠ "" && s.toList.all Char.isDigit

/-- The header-skipping scan of lines 291-296 of the source: `first_row` is
the index of the first row whose first field is all digits; when no such
row exists the `for` loop leaves `i` at the index of the last row. -/
def first_row (rows : List String) : ℕ :=
  (rows.findIdx? pyIsDigit).getD (rows.length - 1)

/-- One parsed weather row with the fields the model reads (month, day,
dry bulb temperature in Celsius, global horizontal radiation, relative
humidity). -/
structure WRow where
  month : ℕ
  day : ℕ
  tdb : ℚ
  gh : ℚ
  rh : ℚ
deriving DecidableEq

/-- The day filter of lines 305-311 of the source:
`WeatherData[(WeatherData["month"]==month) & (WeatherData["day"]==day)]`. -/
def dayRows (rows : List WRow) (m dy : ℕ) : List WRow :=
  rows.filter (fun r => r.month == m && r.day == dy)

/-- The target-day profile built at lines 304-312: air temperature shifted
to Kelvin, radiation and humidity taken as read. -/
structure DayProfile where
  AirTemp : List ℚ
  Gh : List ℚ
  Ha : List ℚ
deriving DecidableEq

/-- The extraction of the target-day series, lines 304-312 of the source.
It is total: the source performs no validity check on the number of
matching rows. -/
def weatherExtract (rows : List WRow) (m dy : ℕ) : DayProfile :=
  { AirTemp := (dayRows rows m dy).map (fun r => r.tdb + 273.15)
    Gh := (dayRows rows m dy).map (fun r => r.gh)
    Ha := (dayRows rows m dy).map (fun r => r.rh) }

/-- Modelled from the spec: the `DataFormatError` of section 7 of the
specification, raised for a weather file with no numeric row or with fewer
than 24 rows for the target day.  No such error exists in the source. -/
inductive DataFormatError where
  | noNumericRow : DataFormatError
  | missingHours : DataFormatError
deriving DecidableEq

/-- Modelled from the spec: weather parsing as the specification describes
it, failing with `DataFormatError` when no numeric row exists or when fewer
than 24 rows match the target day. -/
def weatherExtractSpec (firstFields : List String) (rows : List WRow)
    (m dy : ℕ) : Except DataFormatError DayProfile :=
  if (firstFields.findIdx? pyIsDigit).isNone then .error .noNumericRow
  else if (dayRows rows m dy).length < 24 then .error .missingHours
  else .ok (weatherExtract rows m dy)

/-- Weather parsing as the source performs it, wrapped in the same error
type for comparison: lines 291-312 raise nothing and always produce a
profile, so the result is always `.ok`. -/
def weatherExtractSrc (firstFields : List String) (rows : List WRow)
    (m dy : ℕ) : Except DataFormatError DayProfile :=
  .ok (weatherExtract rows m dy)

/-- Whether an `Except` value carries a result. -/
def exceptOk {ε α : Type} : Except ε α → Bool
  | .ok _ => true
  | .error _ => false

/-- One row of an hourly point table written to `Step_4/Temp`: point id and
sampled shadow value (column `Shadow1`). -/
structure ShadowRow where
  pid : ℕ
  shadow : ℚ
deriving DecidableEq

/-- The night filling of lines 245-255 of the source: the table of the last
raster-derived hour is copied with its `Shadow1` column overwritten to 0. -/
def night_table (other_hours : List ShadowRow) : List ShadowRow :=
  other_hours.map (fun r => { r with shadow := 0 })

/-- The point table used for hour `h` (1-based as in the file names): the
raster-sampled table when a shadow raster exists for `h` (lines 227-243),
and the zeroed copy of the last raster-derived table when not (lines
252-255). -/
def hour_table (shadowHours : List ℕ) (rasterTable : ℕ → List ShadowRow)
    (other_hours : List ShadowRow) (h : ℕ) : List ShadowRow :=
  if h ∈ shadowHours then rasterTable h else night_table other_hours

/-- The file-name marker checked at line 73 of the source. -/
def result_marker : String := "ComputedPoints.csv"

/-- Whether `needle` occurs at the start of `hay`. -/
def matchesAt : List Char → List Char → Bool
  | [], _ => true
  | _ :: _, [] => false
  | a :: as, b :: bs => a == b && matchesAt as bs

/-- Whether `needle` occurs contiguously anywhere in `hay`: the Python
membership test `needle in hay` on strings. -/
def containsSeg (needle : List Char) : List Char → Bool
  | [] => matchesAt needle []
  | b :: bs => matchesAt needle (b :: bs) || containsSeg needle bs

/-- The guard of lines 71-75 of the source: some loaded layer path contains
`ComputedPoints.csv`. -/
def detectResultLayer (paths : List String) : Bool :=
  paths.any (fun p => containsSeg result_marker.toList p.toList)

/-- The head of `processAlgorithm`: when the result-layer guard fires,
`sys.exit` ends the run at line 75 before the grid, the weather data and
the solves (`none`); otherwise the rest of the algorithm, abstracted as
`pipeline`, runs and produces its output. -/
def processAlgorithmGate {β : Type} (paths : List String) (pipeline : β) :
    Option β :=
  if detectResultLayer paths then none else some pipeline

/-- One row of the per-point table `pts_matrix` of line 281 of the source:
id, coordinates, material name, material coefficients and the ordered
24-tuple of sunlit fractions. -/
structure Pt where
  pid : ℕ
  x : ℚ
  y : ℚ
  Material : String
  alb : ℚ
  em : ℚ
  Cv : ℚ
  lambd : ℚ
  ep : ℚ
  kc : ℚ
  FixedTemp : ℚ
  Long : ℚ
  Lat : ℚ
  Shadow1 : List ℚ
deriving DecidableEq

/-- The equivalence key of line 283 of the source: material identifier plus
the ordered tuple of sunlit fractions (the source concatenates their string
forms; the pair is its faithful rendering for numeric shadow values). -/
def ptKey (p : Pt) : String × List ℚ := (p.Material, p.Shadow1)

/-- The distinct keys in first-appearance order, as produced by the
`groupby(by=["key"])` of line 288. -/
def distinctKeys (pts : List Pt) : List (String × List ℚ) :=
  pts.foldl (fun ks p => if ptKey p ∈ ks then ks else ks ++ [ptKey p]) []

/-- The representative of a key: the first point carrying it, matching the
`'first'` aggregations of line 288. -/
def firstWithKey (pts : List Pt) (k : String × List ℚ) : Option Pt :=
  pts.find? (fun p => decide (ptKey p = k))

/-- The shared weather series handed to every row (lines 306-310). -/
structure DayData where
  Gh : ℕ → ℚ
  Tsky : ℕ → ℚ
  Tair : ℕ → ℚ

/-- The solver applied to one representative row, line 518 of the source:
`compute_temp` receives the row id, fixed temperature, shadow tuple, the
`B` and `C` columns of lines 455-456, the shared weather series and the
per-row `ETO` and `Tint` series (abstracted as functions `et0f`, `tintf`
of the row). -/
def solveRow (oracle : ℚ → ℚ → ℚ → ℚ → ℚ) (w : DayData)
    (et0f tintf : Pt → ℕ → ℚ) (p : Pt) : List ℚ :=
  compute_temp oracle (p.pid : ℚ) p.FixedTemp (fun h => p.Shadow1.getD h 0)
    (coefB p.lambd p.ep p.Cv) (coefC p.em) w.Gh p.alb p.em w.Tsky w.Tair
    p.lambd p.ep p.Cv (et0f p) (tintf p) p.kc

/-- The solved series of one key together with its summary statistics
(lines 518-521 of the source). -/
structure SolvedVal where
  Temp : List ℚ
  minT : ℚ
  meanT : ℚ
  maxT : ℚ
deriving DecidableEq

/-- Solve of one equivalence key through its representative row. -/
def solveKey (oracle : ℚ → ℚ → ℚ → ℚ → ℚ) (w : DayData)
    (et0f tintf : Pt → ℕ → ℚ) (pts : List Pt) (k : String × List ℚ) :
    SolvedVal :=
  match firstWithKey pts k with
  | some p =>
      let s := solveRow oracle w et0f tintf p
      ⟨s, pyMin s, mean_stat s, pyMax s⟩
  | none => ⟨[], 0, 0, 0⟩

/-- The `simplified` table after solving: one entry per distinct key (lines
288 and 518-521 of the source). -/
def solvedTable (oracle : ℚ → ℚ → ℚ → ℚ → ℚ) (w : DayData)
    (et0f tintf : Pt → ℕ → ℚ) (pts : List Pt) :
    List ((String × List ℚ) × SolvedVal) :=
  (distinctKeys pts).map (fun k => (k, solveKey oracle w et0f tintf pts k))

/-- Lookup of a key in the solved table, the `merge(..., on='key')` of line
523 of the source. -/
def lookupSolved (tbl : List ((String × List ℚ) × SolvedVal))
    (k : String × List ℚ) : SolvedVal :=
  ((tbl.find? (fun e => decide (e.1 = k))).map Prod.snd).getD ⟨[], 0, 0, 0⟩

/-- One output row of `ComputedPoints.csv` (lines 523-524 of the source):
point id and coordinates with the broadcast series and statistics. -/
structure OutRow where
  pid : ℕ
  x : ℚ
  y : ℚ
  Temp : List ℚ
  minT : ℚ
  meanT : ℚ
  maxT : ℚ
deriving DecidableEq

/-- The broadcast of the solved values onto one point, the left merge on
`key` of line 523 of the source. -/
def outputRow (oracle : ℚ → ℚ → ℚ → ℚ → ℚ) (w : DayData)
    (et0f tintf : Pt → ℕ → ℚ) (pts : List Pt) (p : Pt) : OutRow :=
  let v := lookupSolved (solvedTable oracle w et0f tintf pts) (ptKey p)
  ⟨p.pid, p.x, p.y, v.Temp, v.minT, v.meanT, v.maxT⟩

/-- Witness data: a root oracle that returns its guess unchanged. -/
def oracleQ : ℚ → ℚ → ℚ → ℚ → ℚ := fun g _ _ _ => g

/-- Witness data: a root oracle that solves `A + B x = 0` exactly when
`B = 5` and `C = 0`. -/
def oracleA : ℚ → ℚ → ℚ → ℚ → ℚ := fun _ A _ _ => -A / 5

/-- Witness data: the all-zero hourly series. -/
def zeroSeq : ℕ → ℚ := fun _ => 0

/-- Witness data: a degenerate row (no radiation, zero emissivity, unit
thickness) whose thermal equation is linear with slope 5. -/
def pW : RowData ℚ := ⟨zeroSeq, zeroSeq, zeroSeq, zeroSeq, zeroSeq, zeroSeq,
  0, 0, 0, 1, 0, 0, 5, 0⟩

/-- Counterexample data: the output of `compute_temp` for a material fixing
the temperature `20.126`, whose unrounded constant series makes the rounded
mean exceed the maximum. -/
def lFix : List ℚ :=
  compute_temp oracleQ 1 20.126 zeroSeq 5 0 zeroSeq 0 0 zeroSeq zeroSeq
    0 1 0 zeroSeq zeroSeq 0

/-- Witness data: all-zero weather series. -/
def dayW : DayData := ⟨zeroSeq, zeroSeq, zeroSeq⟩

/-- Witness data: a 24-entry sunlit-fraction tuple. -/
def shadow24 : List ℚ := List.replicate 24 1

/-- Witness data: a point with a fixed-temperature material. -/
def ptA : Pt := ⟨1, 0, 0, "grass", 0, 0, 0, 0, 1, 0, 7, 0, 0, shadow24⟩

/-- Witness data: a second point sharing the equivalence key of `ptA`. -/
def ptB : Pt := ⟨2, 3, 4, "grass", 0, 0, 0, 0, 1, 0, 7, 0, 0, shadow24⟩

/-- Counterexample data: a weather table with only two rows for July 21. -/
def wRowsShort : List WRow := [⟨7, 21, 20, 100, 50⟩, ⟨7, 21, 21, 200, 55⟩]

/-- Counterexample data: the first fields of the raw weather rows, one
header line followed by a numeric line. -/
def headerFields : List String := ["LOCATION", "2001"]

/-- Witness data: a point table of the last raster-derived hour. -/
def ohW : List ShadowRow := [⟨1, 0.7⟩, ⟨2, 0.2⟩]

/-- Witness data: raster tables (unused at night hours). -/
def rtW : ℕ → List ShadowRow := fun _ => []

/-- Witness data: layer paths of a project still holding the result layer. -/
def pathsW : List String := ["proj/Step_4/ComputedPoints.csv"]

/-! Helper lemmas about rounding. -/

theorem rhe_intCast {α : Type} [LinearOrderedField α] [FloorRing α] (n : ℤ) :
    rhe (n : α) = n := by
  have h : ((n : α) - (⌊(n : α)⌋ : α)) = 0 := by
    rw [Int.floor_intCast]; ring
  unfold rhe
  rw [h, if_pos (by norm_num), Int.floor_intCast]

theorem floor_le_rhe {α : Type} [LinearOrderedField α] [FloorRing α] (q : α) :
    ⌊q⌋ ≤ rhe q := by
  unfold rhe; split_ifs <;> omega

theorem rhe_le_floor_add_one {α : Type} [LinearOrderedField α] [FloorRing α]
    (q : α) : rhe q ≤ ⌊q⌋ + 1 := by
  unfold rhe; split_ifs <;> omega

theorem abs_rhe_sub {α : Type} [LinearOrderedField α] [FloorRing α] (q : α) :
    |((rhe q : ℤ) : α) - q| ≤ 1 / 2 := by
  have h1 : (⌊q⌋ : α) ≤ q := Int.floor_le q
  have h2 : q < ⌊q⌋ + 1 := Int.lt_floor_add_one q
  unfold rhe
  split_ifs with ha hb hev
  · rw [abs_le]; constructor <;> linarith
  · push_cast; rw [abs_le]; constructor <;> linarith
  · have htie : q - ⌊q⌋ = 1 / 2 := le_antisymm (not_lt.mp hb) (not_lt.mp ha)
    rw [abs_le]; constructor <;> linarith
  · have htie : q - ⌊q⌋ = 1 / 2 := le_antisymm (not_lt.mp hb) (not_lt.mp ha)
    push_cast; rw [abs_le]; constructor <;> linarith

theorem rhe_mono {α : Type} [LinearOrderedField α] [FloorRing α] {x y : α}
    (hxy : x ≤ y) : rhe x ≤ rhe y := by
  rcases lt_or_eq_of_le (Int.floor_le_floor hxy) with hf | hf
  · calc rhe x ≤ ⌊x⌋ + 1 := rhe_le_floor_add_one x
      _ ≤ ⌊y⌋ := by omega
      _ ≤ rhe y := floor_le_rhe y
  · have hfr : x - (⌊y⌋ : α) ≤ y - (⌊y⌋ : α) := by linarith
    unfold rhe
    rw [hf]
    split_ifs <;> first | omega | (exfalso; linarith)

theorem round2_mono {α : Type} [LinearOrderedField α] [FloorRing α] {x y : α}
    (h : x ≤ y) : round2 x ≤ round2 y := by
  unfold round2
  have h100 : (100 : α) * x ≤ 100 * y := by linarith
  have hr := rhe_mono h100
  have hc : ((rhe (100 * x) : ℤ) : α) ≤ ((rhe (100 * y) : ℤ) : α) := by
    exact_mod_cast hr
  linarith

theorem round2_round2 {α : Type} [LinearOrderedField α] [FloorRing α] (q : α) :
    round2 (round2 q) = round2 q := by
  unfold round2
  have h : (100 : α) * (((rhe (100 * q) : ℤ) : α) / 100) =
      ((rhe (100 * q) : ℤ) : α) := by field_simp
  rw [h, rhe_intCast]

theorem abs_round2_sub {α : Type} [LinearOrderedField α] [FloorRing α] (q : α) :
    |round2 q - q| ≤ 1 / 200 := by
  have h := abs_rhe_sub (100 * q)
  unfold round2
  have heq : ((rhe (100 * q) : ℤ) : α) / 100 - q =
      (((rhe (100 * q) : ℤ) : α) - 100 * q) / 100 := by ring
  rw [heq, abs_div, abs_of_pos (by norm_num : (0 : α) < 100)]
  linarith

/-! Helper lemmas about the Python `min` and `max` folds. -/

theorem foldl_min_le_init {α : Type} [LinearOrderedField α] (xs : List α)
    (a : α) : xs.foldl min a ≤ a := by
  induction xs generalizing a with
  | nil => exact le_refl a
  | cons y ys ih =>
      rw [List.foldl_cons]
      exact le_trans (ih (min a y)) (min_le_left a y)

theorem foldl_min_le_mem {α : Type} [LinearOrderedField α] (xs : List α)
    (a x : α) (hx : x ∈ xs) : xs.foldl min a ≤ x := by
  induction xs generalizing a with
  | nil => cases hx
  | cons y ys ih =>
      rw [List.foldl_cons]
      rcases List.mem_cons.mp hx with rfl | hmem
      · exact le_trans (foldl_min_le_init ys (min a x)) (min_le_right a x)
      · exact ih (min a y) hmem

theorem foldl_min_mem {α : Type} [LinearOrderedField α] (xs : List α)
    (a : α) : xs.foldl min a = a ∨ xs.foldl min a ∈ xs := by
  induction xs generalizing a with
  | nil => exact Or.inl rfl
  | cons y ys ih =>
      rw [List.foldl_cons]
      rcases ih (min a y) with h | h
      · rcases min_choice a y with hm | hm
        · exact Or.inl (by rw [h, hm])
        · exact Or.inr (by rw [h, hm]; exact List.mem_cons_self y ys)
      · exact Or.inr (List.mem_cons_of_mem y h)

theorem pyMin_le_of_mem {α : Type} [LinearOrderedField α] {l : List α} {x : α}
    (hx : x ∈ l) : pyMin l ≤ x := by
  cases l with
  | nil => cases hx
  | cons y ys =>
      rcases List.mem_cons.mp hx with rfl | hmem
      · exact foldl_min_le_init ys x
      · exact foldl_min_le_mem ys y x hmem

theorem pyMin_mem {α : Type} [LinearOrderedField α] {l : List α}
    (h : l ≠ []) : pyMin l ∈ l := by
  cases l with
  | nil => exact absurd rfl h
  | cons y ys =>
      rcases foldl_min_mem ys y with h1 | h1
      · exact (by rw [pyMin, h1]; exact List.mem_cons_self y ys)
      · exact (by rw [pyMin]; exact List.mem_cons_of_mem y h1)

theorem foldl_max_ge_init {α : Type} [LinearOrderedField α] (xs : List α)
    (a : α) : a ≤ xs.foldl max a := by
  induction xs generalizing a with
  | nil => exact le_refl a
  | cons y ys ih =>
      rw [List.foldl_cons]
      exact le_trans (le_max_left a y) (ih (max a y))

theorem foldl_max_ge_mem {α : Type} [LinearOrderedField α] (xs : List α)
    (a x : α) (hx : x ∈ xs) : x ≤ xs.foldl max a := by
  induction xs generalizing a with
  | nil => cases hx
  | cons y ys ih =>
      rw [List.foldl_cons]
      rcases List.mem_cons.mp hx with rfl | hmem
      · exact le_trans (le_max_right a x) (foldl_max_ge_init ys (max a x))
      · exact ih (max a y) hmem

theorem foldl_max_mem {α : Type} [LinearOrderedField α] (xs : List α)
    (a : α) : xs.foldl max a = a ∨ xs.foldl max a ∈ xs := by
  induction xs generalizing a with
  | nil => exact Or.inl rfl
  | cons y ys ih =>
      rw [List.foldl_cons]
      rcases ih (max a y) with h | h
      · rcases max_choice a y with hm | hm
        · exact Or.inl (by rw [h, hm])
        · exact Or.inr (by rw [h, hm]; exact List.mem_cons_self y ys)
      · exact Or.inr (List.mem_cons_of_mem y h)

theorem le_pyMax_of_mem {α : Type} [LinearOrderedField α] {l : List α} {x : α}
    (hx : x ∈ l) : x ≤ pyMax l := by
  cases l with
  | nil => cases hx
  | cons y ys =>
      rcases List.mem_cons.mp hx with rfl | hmem
      · exact foldl_max_ge_init ys x
      · exact foldl_max_ge_mem ys y x hmem

theorem pyMax_mem {α : Type} [LinearOrderedField α] {l : List α}
    (h : l ≠ []) : pyMax l ∈ l := by
  cases l with
  | nil => exact absurd rfl h
  | cons y ys =>
      rcases foldl_max_mem ys y with h1 | h1
      · exact (by rw [pyMax, h1]; exact List.mem_cons_self y ys)
      · exact (by rw [pyMax]; exact List.mem_cons_of_mem y h1)

/-! Helper lemmas bounding a list sum by its extremes. -/

theorem length_mul_le_sum {α : Type} [LinearOrderedField α] (l : List α)
    (m : α) (h : ∀ x ∈ l, m ≤ x) : (l.length : α) * m ≤ l.sum := by
  induction l with
  | nil => simp
  | cons y ys ih =>
      simp only [List.length_cons, List.sum_cons]
      push_cast
      rw [add_mul, one_mul]
      have h1 := h y (List.mem_cons_self y ys)
      have h2 := ih (fun x hx => h x (List.mem_cons_of_mem y hx))
      linarith

theorem sum_le_length_mul {α : Type} [LinearOrderedField α] (l : List α)
    (m : α) (h : ∀ x ∈ l, x ≤ m) : l.sum ≤ (l.length : α) * m := by
  induction l with
  | nil => simp
  | cons y ys ih =>
      simp only [List.length_cons, List.sum_cons]
      push_cast
      rw [add_mul, one_mul]
      have h1 := h y (List.mem_cons_self y ys)
      have h2 := ih (fun x hx => h x (List.mem_cons_of_mem y hx))
      linarith

/-- Statistics over a nonempty list of already-rounded values: the rounded
mean lies between the minimum and the maximum and within half a rounding
unit of the exact mean. -/
theorem stats_round2 {α : Type} [LinearOrderedField α] [FloorRing α]
    (l : List α) (hne : l ≠ []) (hfix : ∀ x ∈ l, round2 x = x) :
    pyMin l ≤ mean_stat l ∧ mean_stat l ≤ pyMax l ∧
      |mean_stat l - l.sum / (l.length : α)| ≤ 1 / 200 := by
  have hlen : (0 : α) < (l.length : α) := by
    exact_mod_cast List.length_pos.mpr hne
  have hminavg : pyMin l ≤ l.sum / (l.length : α) := by
    rw [le_div_iff₀ hlen]
    have := length_mul_le_sum l (pyMin l) (fun x hx => pyMin_le_of_mem hx)
    linarith
  have hmaxavg : l.sum / (l.length : α) ≤ pyMax l := by
    rw [div_le_iff₀ hlen]
    have := sum_le_length_mul l (pyMax l) (fun x hx => le_pyMax_of_mem hx)
    linarith
  refine ⟨?_, ?_, abs_round2_sub _⟩
  · have h1 : round2 (pyMin l) = pyMin l := hfix _ (pyMin_mem hne)
    calc pyMin l = round2 (pyMin l) := h1.symm
      _ ≤ round2 (l.sum / (l.length : α)) := round2_mono hminavg
      _ = mean_stat l := rfl
  · have h1 : round2 (pyMax l) = pyMax l := hfix _ (pyMax_mem hne)
    calc mean_stat l = round2 (l.sum / (l.length : α)) := rfl
      _ ≤ round2 (pyMax l) := round2_mono hmaxavg
      _ = pyMax l := h1

/-- Bounds and warning semantics of the convergence loop: starting from a
pass count `count` with fuel `24 - count`, the loop always performs at
least one more pass, stops with a count between 2 and 25, reports
convergence (no warning) exactly when the final error is below the
threshold, and warns only at the hard stop `count = 25`. -/
theorem loopAux_bounds {α : Type} [LinearOrderedField α]
    (oracle : α → α → α → α → α) (p : RowData α) :
    ∀ fuel count T0, count + fuel = 24 →
      2 ≤ (loopAux oracle p fuel count T0).count ∧
      (loopAux oracle p fuel count T0).count ≤ 25 ∧
      ((loopAux oracle p fuel count T0).warn = false ↔
        |cycleTemp oracle p (loopAux oracle p fuel count T0).seed 23 -
          (loopAux oracle p fuel count T0).seed| < 0.5) ∧
      ((loopAux oracle p fuel count T0).warn = true →
        (loopAux oracle p fuel count T0).count = 25) := by
  intro fuel
  induction fuel with
  | zero =>
      intro count T0 hcf
      have hc : count = 24 := by omega
      subst hc
      have hcond : 2 ≤ 24 + 1 ∧
          (|cycleTemp oracle p T0 23 - T0| < (0.5 : α) ∨ 24 + 1 = 25) :=
        ⟨by norm_num, Or.inr (by norm_num)⟩
      simp only [loopAux, if_pos hcond]
      by_cases hd : |cycleTemp oracle p T0 23 - T0| < (0.5 : α)
      · simp [hd]
      · simp [hd]
  | succ f ih =>
      intro count T0 hcf
      by_cases hcond : 2 ≤ count + 1 ∧
          (|cycleTemp oracle p T0 23 - T0| < (0.5 : α) ∨ count + 1 = 25)
      · simp only [loopAux, if_pos hcond]
        refine ⟨hcond.1, by omega, ?_, ?_⟩
        · by_cases hd : |cycleTemp oracle p T0 23 - T0| < (0.5 : α)
          · simp [hd]
          · simp [hd]
        · intro hw
          by_cases hd : |cycleTemp oracle p T0 23 - T0| < (0.5 : α)
          · simp [hd] at hw
          · rcases hcond.2 with h | h
            · exact absurd h hd
            · exact h
      · simp only [loopAux, if_neg hcond]
        exact ih (count + 1) (cycleTemp oracle p T0 23) (by omega)

/-- Elements of a list bounded below by zero have a nonnegative `getD`. -/
theorem getD_nonneg (l : List ℝ) (h : ∀ x ∈ l, 0 ≤ x) :
    ∀ i, 0 ≤ l.getD i 0 := by
  induction l with
  | nil => intro i; simp [List.getD]
  | cons y ys ih =>
      intro i
      cases i with
      | zero => simpa using h y (List.mem_cons_self y ys)
      | succ j =>
          simpa using ih (fun x hx => h x (List.mem_cons_of_mem y hx)) j

/-- The clamp of lines 429-430 never returns a negative value. -/
theorem clamp0_nonneg (x : ℝ) : 0 ≤ clamp0 x := by
  unfold clamp0
  split_ifs with h
  · exact le_refl 0
  · exact le_of_not_lt h

/-- Every hourly evapotranspiration value is clamped, hence nonnegative. -/
theorem EvapoHour_nonneg (alt t l : ℝ) (Tair Gh Ha : ℕ → ℝ)
    (lat alb : ℝ) (i : ℕ) : 0 ≤ EvapoHour alt t l Tair Gh Ha lat alb i := by
  unfold EvapoHour
  exact clamp0_nonneg _

/-- The key-accumulating fold preserves the absence of duplicates. -/
theorem foldl_keys_nodup (pts : List Pt) :
    ∀ ks : List (String × List ℚ), ks.Nodup →
      (pts.foldl (fun ks p => if ptKey p ∈ ks then ks else ks ++ [ptKey p])
        ks).Nodup := by
  induction pts with
  | nil => intro ks h; exact h
  | cons p ps ih =>
      intro ks h
      rw [List.foldl_cons]
      by_cases hk : ptKey p ∈ ks
      · rw [if_pos hk]; exact ih ks h
      · rw [if_neg hk]
        refine ih _ ?_
        refine List.nodup_append.mpr ⟨h, List.nodup_singleton _, ?_⟩
        intro a ha hb
        rcases List.mem_singleton.mp hb with rfl
        exact hk ha

/-- The distinct keys of the point table carry no duplicate. -/
theorem distinctKeys_nodup (pts : List Pt) : (distinctKeys pts).Nodup :=
  foldl_keys_nodup pts [] List.nodup_nil

/-- Claim C1: for an equivalence class solved iteratively (FixedTemp = 0),
the temperature of each hour `h` of a cycle seeded with `T0` (the previous
hourly value, or the carried-over seed at hour 0, initialized to 28 Celsius
in Kelvin by `solve_loop`) satisfies `A(h) + B*T + C*T^4 = 0` with
`B = hc + lambd/ep + Cv*ep/3600`, `hc = 5`, `C = em*sigma`,
`sigma = 5.67e-8`, and `A(h)` the stated combination of radiation, sky and
air temperatures, conduction, capacitance and evapotranspiration terms —
provided the root finder returns an exact root of the thermal equation at
that call, which is the idealisation of `optimize.root`. -/
theorem claim_C1 {α : Type} [LinearOrderedField α]
    (oracle : α → α → α → α → α) (p : RowData α) (T0 : α) (h : ℕ)
    (hle : h ≤ 23) (hB : p.B = coefB p.lambd p.ep p.Cv)
    (hC : p.C = coefC p.em)
    (hroot : thermal_equation (cycleTemp oracle p T0 h)
      (hourA p h (prevTemp oracle p T0 h)) p.B p.C = 0) :
    hc = (5 : α) ∧ sigmaSB = (5.67e-8 : α) ∧
    (-(0.8 * p.Gh h * p.Shadow h * (1 - p.alb) + 0.2 * p.Gh h * (1 - p.alb))
        - p.em * sigmaSB * p.Tsky h ^ 4 - hc * p.Tair h
        - p.lambd / p.ep * p.Tint h
        - p.Cv * p.ep / 3600 * prevTemp oracle p T0 h
        + p.ET0 h * p.kc)
      + (hc + p.lambd / p.ep + p.Cv * p.ep / 3600) * cycleTemp oracle p T0 h
      + p.em * sigmaSB * cycleTemp oracle p T0 h ^ 4 = 0 := by
  refine ⟨rfl, rfl, ?_⟩
  rw [hB, hC] at hroot
  simp only [thermal_equation, hourA, compute_A, coefB, coefC] at hroot
  linear_combination hroot

/-- Witness for claim C1 at a concrete degenerate row whose thermal
equation is linear, with an oracle solving it exactly. -/
theorem claim_C1_witness :
    hc = (5 : ℚ) ∧ sigmaSB = (5.67e-8 : ℚ) ∧
    (-(0.8 * pW.Gh 0 * pW.Shadow 0 * (1 - pW.alb) + 0.2 * pW.Gh 0 * (1 - pW.alb))
        - pW.em * sigmaSB * pW.Tsky 0 ^ 4 - hc * pW.Tair 0
        - pW.lambd / pW.ep * pW.Tint 0
        - pW.Cv * pW.ep / 3600 * prevTemp oracleA pW 301.15 0
        + pW.ET0 0 * pW.kc)
      + (hc + pW.lambd / pW.ep + pW.Cv * pW.ep / 3600) * cycleTemp oracleA pW 301.15 0
      + pW.em * sigmaSB * cycleTemp oracleA pW 301.15 0 ^ 4 = 0 :=
  claim_C1 oracleA pW 301.15 0 (by norm_num)
    (by norm_num [pW, coefB, hc])
    (by norm_num [pW, coefC, sigmaSB])
    (by norm_num [thermal_equation, hourA, compute_A, cycleTemp, warmStart,
      prevTemp, oracleA, pW, zeroSeq, hc, sigmaSB])

/-- Claim C2: for a class with FixedTemp = 0 the day-cycle loop performs at
least 2 and at most 25 full 24-hour passes; it stops without warning
exactly when the error `|history[23] - T0|` of the final pass is below the
threshold 0.5, and the non-fatal warning of line 503 (whose message carries
the representative point id of the class) is emitted only at the hard stop
`count = 25`. -/
theorem claim_C2 {α : Type} [LinearOrderedField α]
    (oracle : α → α → α → α → α) (p : RowData α) :
    2 ≤ (solve_loop oracle p).count ∧ (solve_loop oracle p).count ≤ 25 ∧
    ((solve_loop oracle p).warn = false ↔
      |cycleTemp oracle p (solve_loop oracle p).seed 23 -
        (solve_loop oracle p).seed| < 0.5) ∧
    ((solve_loop oracle p).warn = true → (solve_loop oracle p).count = 25) := by
  have h := loopAux_bounds oracle p 24 0 (28 + 273.15) (by norm_num)
  simpa [solve_loop] using h

/-- Claim C3: a nonzero fixed override temperature bypasses the solver and
the 24-hour output is that constant, whatever the weather, the shading and
the other material coefficients. -/
theorem claim_C3 {α : Type} [LinearOrderedField α] [FloorRing α]
    (oracle : α → α → α → α → α) (tid FixedTemp : α) (Shadow : ℕ → α)
    (B C : α) (Gh : ℕ → α) (alb em : α) (Tsky Tair : ℕ → α)
    (lambd ep Cv : α) (ET0 : ℕ → α) (Tint : ℕ → α) (kc : α)
    (hfx : FixedTemp ≠ 0) :
    compute_temp oracle tid FixedTemp Shadow B C Gh alb em Tsky Tair
      lambd ep Cv ET0 Tint kc = List.replicate 24 FixedTemp := by
  simp only [compute_temp]
  rw [if_pos hfx]
  exact List.ofFn_const 24 FixedTemp

/-- Witness for claim C3: a material fixing 5 degrees yields the constant
series whatever oracle and weather are supplied. -/
theorem claim_C3_witness :
    compute_temp oracleQ 1 5 zeroSeq 5 0 zeroSeq 0 0 zeroSeq zeroSeq
      0 1 0 zeroSeq zeroSeq 0 = List.replicate 24 (5 : ℚ) :=
  claim_C3 oracleQ 1 5 zeroSeq 5 0 zeroSeq 0 0 zeroSeq zeroSeq
    0 1 0 zeroSeq zeroSeq 0 (by decide)

/-- Claim C4: points sharing an equivalence key receive identical solved
series and identical min, mean and max, the solver table holds exactly one
entry per distinct key (the keys carry no duplicate), and the broadcast is
a lookup of the shared key. -/
theorem claim_C4 (oracle : ℚ → ℚ → ℚ → ℚ → ℚ) (w : DayData)
    (et0f tintf : Pt → ℕ → ℚ) (pts : List Pt) (p q : Pt)
    (hk : ptKey p = ptKey q) :
    (outputRow oracle w et0f tintf pts p).Temp =
      (outputRow oracle w et0f tintf pts q).Temp ∧
    (outputRow oracle w et0f tintf pts p).minT =
      (outputRow oracle w et0f tintf pts q).minT ∧
    (outputRow oracle w et0f tintf pts p).meanT =
      (outputRow oracle w et0f tintf pts q).meanT ∧
    (outputRow oracle w et0f tintf pts p).maxT =
      (outputRow oracle w et0f tintf pts q).maxT ∧
    (solvedTable oracle w et0f tintf pts).length = (distinctKeys pts).length ∧
    (distinctKeys pts).Nodup := by
  refine ⟨?_, ?_, ?_, ?_, ?_, distinctKeys_nodup pts⟩
  · show (lookupSolved (solvedTable oracle w et0f tintf pts) (ptKey p)).Temp =
      (lookupSolved (solvedTable oracle w et0f tintf pts) (ptKey q)).Temp
    rw [hk]
  · show (lookupSolved (solvedTable oracle w et0f tintf pts) (ptKey p)).minT =
      (lookupSolved (solvedTable oracle w et0f tintf pts) (ptKey q)).minT
    rw [hk]
  · show (lookupSolved (solvedTable oracle w et0f tintf pts) (ptKey p)).meanT =
      (lookupSolved (solvedTable oracle w et0f tintf pts) (ptKey q)).meanT
    rw [hk]
  · show (lookupSolved (solvedTable oracle w et0f tintf pts) (ptKey p)).maxT =
      (lookupSolved (solvedTable oracle w et0f tintf pts) (ptKey q)).maxT
    rw [hk]
  · simp only [solvedTable, List.length_map]

/-- Witness for claim C4: two points of the same material and shading tuple
receive the same series. -/
theorem claim_C4_witness :
    (outputRow oracleQ dayW (fun _ _ => 0) (fun _ _ => 0) [ptA, ptB] ptA).Temp =
    (outputRow oracleQ dayW (fun _ _ => 0) (fun _ _ => 0) [ptA, ptB] ptB).Temp :=
  (claim_C4 oracleQ dayW (fun _ _ => 0) (fun _ _ => 0) [ptA, ptB] ptA ptB
    (by decide)).1

/-- Claim C5: every hourly evapotranspiration value produced by `Evapo` is
nonnegative — any negative combined radiative-plus-aerodynamic flux is
replaced by 0 by the clamp of lines 429-430. -/
theorem claim_C5 (alt t l : ℝ) (Tair Gh Ha : ℕ → ℝ) (lat alb : ℝ)
    (i : ℕ) : 0 ≤ (Evapo alt t l Tair Gh Ha lat alb).getD i 0 := by
  refine getD_nonneg _ ?_ i
  intro x hx
  simp only [Evapo, List.mem_map] at hx
  obtain ⟨j, hj, rfl⟩ := hx
  exact EvapoHour_nonneg alt t l Tair Gh Ha lat alb j

/-- Folding `min` over copies of the initial value changes nothing. -/
theorem foldl_min_self {α : Type} [LinearOrderedField α] (n : ℕ) (a : α) :
    (List.replicate n a).foldl min a = a := by
  induction n with
  | zero => rfl
  | succ m ih => rw [List.replicate_succ, List.foldl_cons, min_self]; exact ih

/-- The Python `min` of a constant list is that constant. -/
theorem pyMin_replicate {α : Type} [LinearOrderedField α] (n : ℕ) (a : α) :
    pyMin (List.replicate (n + 1) a) = a := by
  rw [List.replicate_succ]
  show (List.replicate n a).foldl min a = a
  exact foldl_min_self n a

/-- Folding `max` over copies of the initial value changes nothing. -/
theorem foldl_max_self {α : Type} [LinearOrderedField α] (n : ℕ) (a : α) :
    (List.replicate n a).foldl max a = a := by
  induction n with
  | zero => rfl
  | succ m ih => rw [List.replicate_succ, List.foldl_cons, max_self]; exact ih

/-- The Python `max` of a constant list is that constant. -/
theorem pyMax_replicate {α : Type} [LinearOrderedField α] (n : ℕ) (a : α) :
    pyMax (List.replicate (n + 1) a) = a := by
  rw [List.replicate_succ]
  show (List.replicate n a).foldl max a = a
  exact foldl_max_self n a

/-- Claim C6 counterexample: with a weather table holding only two rows for
July 21 (fewer than 24), the extraction of lines 291-312 still succeeds —
no `DataFormatError` is raised and the run is not aborted, contradicting
the claim that parsing fails in that situation.  The spec-modelled parser
differs from the source at this input. -/
theorem claim_C6_counterexample :
    (dayRows wRowsShort 7 21).length < 24 ∧
    exceptOk (weatherExtractSrc headerFields wRowsShort 7 21) = true ∧
    weatherExtractSrc headerFields wRowsShort 7 21 ≠
      weatherExtractSpec headerFields wRowsShort 7 21 := by
  refine ⟨by decide, rfl, ?_⟩
  intro hcon
  have : weatherExtractSpec headerFields wRowsShort 7 21 =
      Except.error DataFormatError.missingHours := by
    unfold weatherExtractSpec
    rw [if_neg (by decide), if_pos (by decide)]
  rw [this] at hcon
  exact Except.noConfusion hcon

/-- Claim C6 amended: the weather parsing of lines 291-312 performs no
validity check and never raises: the extraction always succeeds, the
per-day series has exactly as many entries as there are rows matching the
target (month, day) — possibly fewer than 24 — and when no numeric first
field exists the scan simply leaves the data start at the last row index.
Failures from a short day can only surface later, during solving. -/
theorem claim_C6_amended (firstFields : List String) (rows : List WRow)
    (m dy : ℕ) :
    exceptOk (weatherExtractSrc firstFields rows m dy) = true ∧
    (weatherExtract rows m dy).AirTemp.length = (dayRows rows m dy).length ∧
    first_row firstFields =
      (firstFields.findIdx? pyIsDigit).getD (firstFields.length - 1) := by
  refine ⟨rfl, ?_, rfl⟩
  simp [weatherExtract]

/-- Claim C7: for every material and hour, the deep-ground boundary
temperature follows `Tint[h] = Tyear[h] - DeltaT[h]*e^(-Z/Zo)*cos(w*t - Z/Zo)`
with `Dh = (lambd/Cv)*86400`, `Zo = sqrt(2*Dh/w)`, `w = 2*pi/365`,
`Z = 0.2` and `t` the cumulative day of year; being a function of constant
inputs only, the series is the same in every cycle and feeds the conduction
term of the energy balance through `compute_A`. -/
theorem claim_C7 (Tyear deltaT : ℕ → ℝ) (lambd Cv : ℝ) (month day i : ℕ) :
    Tint_src Tyear deltaT (Dh_def lambd Cv) ((dayOfYear month day : ℕ) : ℝ) i =
      Tyear i - deltaT i *
        Real.exp (-(0.2 / Real.sqrt (2 * ((lambd / Cv) * 86400) / (2 * Real.pi / 365)))) *
        Real.cos ((2 * Real.pi / 365) * ((dayOfYear month day : ℕ) : ℝ) -
          0.2 / Real.sqrt (2 * ((lambd / Cv) * 86400) / (2 * Real.pi / 365))) := by
  simp only [Tint_src, Dh_def, Zburial, wAnn, Real.exp_one_rpow]

/-- Claim C8 counterexample: a class whose material fixes the temperature
20.126 returns the unrounded constant series, whose reported statistics
violate `min <= mean <= max` (the rounded mean 20.13 exceeds the maximum
20.126). -/
theorem claim_C8_counterexample :
    ¬ (pyMin lFix ≤ mean_stat lFix ∧ mean_stat lFix ≤ pyMax lFix) := by
  have hl : lFix = List.replicate 24 (20.126 : ℚ) := by
    simp only [lFix, compute_temp]
    rw [if_pos (by norm_num : ¬((20.126 : ℚ) = 0))]
    exact List.ofFn_const 24 _
  have hmin : pyMin lFix = 20.126 := by
    rw [hl]; exact pyMin_replicate 23 _
  have hmax : pyMax lFix = 20.126 := by
    rw [hl]; exact pyMax_replicate 23 _
  have havg : lFix.sum / (lFix.length : ℚ) = 20.126 := by
    rw [hl, List.sum_replicate, List.length_replicate, nsmul_eq_mul]
    norm_num
  have hfl : ⌊(100 : ℚ) * 20.126⌋ = 2012 := by
    rw [Int.floor_eq_iff]
    norm_num
  have hmean : mean_stat lFix = 20.13 := by
    unfold mean_stat
    rw [havg]
    unfold round2 rhe
    rw [hfl]
    rw [if_neg (by norm_num), if_pos (by norm_num)]
    norm_num
  intro hcon
  rw [hmean, hmax] at hcon
  exact absurd hcon.2 (by norm_num)

/-- Claim C8 amended: for every equivalence class solved through the
iterative loop (FixedTemp = 0), whose 24 returned values are rounded to two
decimals, the reported statistics satisfy `min <= mean <= max` and the
reported mean is within half a rounding unit (0.005) of the exact
arithmetic average of those rounded values; for a nonzero fixed override
the series is not rounded and the ordering can fail, as the counterexample
shows. -/
theorem claim_C8_amended {α : Type} [LinearOrderedField α] [FloorRing α]
    (oracle : α → α → α → α → α) (tid : α) (Shadow : ℕ → α) (B C : α)
    (Gh : ℕ → α) (alb em : α) (Tsky Tair : ℕ → α) (lambd ep Cv : α)
    (ET0 : ℕ → α) (Tint : ℕ → α) (kc : α) :
    pyMin (compute_temp oracle tid 0 Shadow B C Gh alb em Tsky Tair
        lambd ep Cv ET0 Tint kc) ≤
      mean_stat (compute_temp oracle tid 0 Shadow B C Gh alb em Tsky Tair
        lambd ep Cv ET0 Tint kc) ∧
    mean_stat (compute_temp oracle tid 0 Shadow B C Gh alb em Tsky Tair
        lambd ep Cv ET0 Tint kc) ≤
      pyMax (compute_temp oracle tid 0 Shadow B C Gh alb em Tsky Tair
        lambd ep Cv ET0 Tint kc) ∧
    |mean_stat (compute_temp oracle tid 0 Shadow B C Gh alb em Tsky Tair
        lambd ep Cv ET0 Tint kc) -
      (compute_temp oracle tid 0 Shadow B C Gh alb em Tsky Tair
        lambd ep Cv ET0 Tint kc).sum /
      ((compute_temp oracle tid 0 Shadow B C Gh alb em Tsky Tair
        lambd ep Cv ET0 Tint kc).length : α)| ≤ 1 / 200 := by
  have hdef : compute_temp oracle tid 0 Shadow B C Gh alb em Tsky Tair
      lambd ep Cv ET0 Tint kc =
      List.ofFn (fun h : Fin 24 => round2 (cycleTemp oracle
        ⟨Shadow, Gh, Tsky, Tair, ET0, Tint, alb, em, lambd, ep, Cv, kc, B, C⟩
        (solve_loop oracle
          ⟨Shadow, Gh, Tsky, Tair, ET0, Tint, alb, em, lambd, ep, Cv, kc, B, C⟩).seed
        h - 273.15)) := by
    simp [compute_temp]
  rw [hdef]
  apply stats_round2
  · intro hnil
    have h24 := congrArg List.length hnil
    simp at h24
  · intro x hx
    rw [List.mem_ofFn] at hx
    obtain ⟨j, hj⟩ := hx
    rw [← hj]
    exact round2_round2 _

/-- Claim C9: for an hour with no shadow raster (a night hour), the point
table written for that hour is the last raster-derived table with its
shadow column overwritten to 0: every point enters the energy balance and
the warm-start heuristic with shadow exactly 0, and the point ids are
preserved. -/
theorem claim_C9 (shadowHours : List ℕ) (rasterTable : ℕ → List ShadowRow)
    (other_hours : List ShadowRow) (h : ℕ) (hna : h ∉ shadowHours) :
    hour_table shadowHours rasterTable other_hours h = night_table other_hours ∧
    (∀ r ∈ hour_table shadowHours rasterTable other_hours h, r.shadow = 0) ∧
    (hour_table shadowHours rasterTable other_hours h).map ShadowRow.pid =
      other_hours.map ShadowRow.pid := by
  have h1 : hour_table shadowHours rasterTable other_hours h =
      night_table other_hours := by
    unfold hour_table
    rw [if_neg hna]
  refine ⟨h1, ?_, ?_⟩
  · intro r hr
    rw [h1] at hr
    unfold night_table at hr
    rw [List.mem_map] at hr
    obtain ⟨s, hs, rfl⟩ := hr
    rfl
  · rw [h1]
    unfold night_table
    rw [List.map_map]
    rfl

/-- Witness for claim C9: hour 1 has no raster among hours 8 and 9, so its
table is the zeroed copy of the last raster-derived table. -/
theorem claim_C9_witness : hour_table [8, 9] rtW ohW 1 = night_table ohW :=
  (claim_C9 [8, 9] rtW ohW 1 (by decide)).1

/-- Claim C10: when some loaded layer path contains `ComputedPoints.csv`,
the run ends at once (the `sys.exit` of line 75), before the point grid,
the weather data and any solving, producing no output. -/
theorem claim_C10 {β : Type} (paths : List String) (pipeline : β)
    (hdet : detectResultLayer paths = true) :
    processAlgorithmGate paths pipeline = none := by
  unfold processAlgorithmGate
  rw [if_pos hdet]

/-- Witness for claim C10: a project holding the result layer path
terminates with no output. -/
theorem claim_C10_witness : processAlgorithmGate pathsW (0 : ℕ) = none :=
  claim_C10 pathsW 0 (by decide)
